import Mathlib

/-!
Shallow embedding of the JYManipur prayer-intention / prayer-challenge server
(`src/server/storage.ts`, `src/server/routes.ts`, `src/shared/schema.ts`,
`src/shared/routes.ts`) and proofs about its claims.

Two storage backends exist in `src/server/storage.ts`:
* `InMemoryStorage` (used when `DATABASE_URL` is absent) — modelled in
  namespace `InMem`.  JavaScript objects may lack a field (`undefined`), so
  optional-at-runtime fields are `Option`s and truthiness tests
  (`if (x.isActive)`) are modelled by `jsTruthy`.
* `DatabaseStorage` — each method is one or two SQL statements against
  Postgres via drizzle; modelled in namespace `DB` as transitions on a list
  of rows, with column defaults (`schema.ts`) applied on insert.

Timestamps (`new Date()`) are modelled as a `Nat` parameter `now` supplied to
every operation that reads the clock.
-/

namespace JYM

/-- JavaScript truthiness of a possibly-absent boolean field:
`undefined` and `false` are falsy, `true` is truthy. -/
def jsTruthy : Option Bool → Bool
  | some true => true
  | _ => false

/-- The three per-intention prayer counters
(`'hailMary' | 'ourFather' | 'rosary'`). -/
inductive PrayerType where
  | hailMary
  | ourFather
  | rosary
deriving DecidableEq, Repr

/-- `['hailMary', 'ourFather', 'rosary'].includes(type)` check of
`routes.ts` combined with reading the tag. -/
def parsePrayerType : String → Option PrayerType
  | "hailMary" => some PrayerType.hailMary
  | "ourFather" => some PrayerType.ourFather
  | "rosary" => some PrayerType.rosary
  | _ => none

/-- Replace the first element satisfying `q` by its image under `f`.
This models the JavaScript pattern `const x = arr.find(q); mutate(x)`:
the object returned by `find` is the one stored in the array, so mutating
it updates the array in place at that position. -/
def updateFirst (q : α → Bool) (f : α → α) : List α → List α
  | [] => []
  | x :: xs => if q x then f x :: xs else x :: updateFirst q f xs

/-- Stable insertion of `x` into a list already sorted descending by `key`
(`x` goes after elements with an equal key, preserving original order). -/
def insertDescBy (key : α → Nat) (x : α) : List α → List α
  | [] => [x]
  | y :: ys => if key y < key x then x :: y :: ys else y :: insertDescBy key x ys

/-- Stable descending sort by `key`; models
`[...arr].sort((a, b) => b.createdAt - a.createdAt)` (ES2019 `Array.sort`
is stable; the comparator orders by `createdAt` descending). -/
def sortDescBy (key : α → Nat) : List α → List α
  | [] => []
  | x :: xs => insertDescBy key x (sortDescBy key xs)

namespace InMem

/-- An intention record as stored by `InMemoryStorage.createIntention`:
the three counters are always initialised (`|| 0`) and `isPrinted` is
coerced to a boolean (`!!`), so they are total fields. -/
structure Intention where
  id : Nat
  content : String
  name : Option String
  prayerType : Option String
  hailMaryCount : Int
  ourFatherCount : Int
  rosaryCount : Int
  isPrinted : Bool
  createdAt : Nat
  updatedAt : Nat
deriving DecidableEq, Repr

/-- A challenge record as stored by `InMemoryStorage.createChallenge`:
`isActive` comes straight from the input spread, so it may be absent
(`undefined`), hence `Option Bool`. -/
structure Challenge where
  id : Nat
  title : String
  prayerType : String
  totalTarget : Int
  currentCount : Int
  isActive : Option Bool
  createdAt : Nat
  updatedAt : Nat
deriving DecidableEq, Repr

/-- Input accepted by `createIntention` (the `InsertIntention` shape; the
route-level zod schema omits the counters and `isPrinted`, but the storage
method also accepts them, e.g. from `seedDatabase`). -/
structure InsertIntention where
  content : String
  name : Option String := none
  prayerType : Option String := none
  hailMaryCount : Option Int := none
  ourFatherCount : Option Int := none
  rosaryCount : Option Int := none
  isPrinted : Option Bool := none
deriving DecidableEq, Repr

/-- Input accepted by `createChallenge` (the `InsertChallenge` shape plus
the optional `currentCount` that `seedDatabase` passes). -/
structure InsertChallenge where
  title : String
  prayerType : String
  totalTarget : Int
  currentCount : Option Int := none
  isActive : Option Bool := none
deriving DecidableEq, Repr

/-- A partial update as accepted by `updateChallenge`
(`Partial<InsertChallenge>`); absent fields are not assigned. -/
structure ChallengeUpdates where
  title : Option String := none
  prayerType : Option String := none
  totalTarget : Option Int := none
  isActive : Option Bool := none
deriving DecidableEq, Repr

/-- The mutable collections of `InMemoryStorage` relevant to the claims
(the `users` collection plays no part in any claim). -/
structure State where
  intentions : List Intention
  challenges : List Challenge
  intentionId : Nat
  challengeId : Nat
deriving DecidableEq, Repr

/-- The empty initial store (`intentions = []`, `challenges = []`,
id counters start at 1). -/
def State.init : State := { intentions := [], challenges := [], intentionId := 1, challengeId := 1 }

/-- `InMemoryStorage.createIntention`: spread the input, generate the id,
stamp `createdAt`/`updatedAt`, default each counter with `|| 0` and coerce
`isPrinted` with `!!`.  Returns the new record and the new store. -/
def createIntention (s : State) (inp : InsertIntention) (now : Nat) :
    Intention × State :=
  let newInt : Intention :=
    { id := s.intentionId
      content := inp.content
      name := inp.name
      prayerType := inp.prayerType
      hailMaryCount := inp.hailMaryCount.getD 0
      ourFatherCount := inp.ourFatherCount.getD 0
      rosaryCount := inp.rosaryCount.getD 0
      isPrinted := inp.isPrinted.getD false
      createdAt := now
      updatedAt := now }
  (newInt, { s with intentions := s.intentions ++ [newInt], intentionId := s.intentionId + 1 })

/-- `InMemoryStorage.getIntentions`: a copy of the collection sorted by
`createdAt` descending. -/
def getIntentions (s : State) : List Intention :=
  sortDescBy Intention.createdAt s.intentions

/-- Read the counter selected by `type`. -/
def counterVal (it : Intention) : PrayerType → Int
  | PrayerType.hailMary => it.hailMaryCount
  | PrayerType.ourFather => it.ourFatherCount
  | PrayerType.rosary => it.rosaryCount

/-- One `+1` bump of the counter selected by `type`, plus the `updatedAt`
stamp.  (`(it.xCount || 0) + 1` in the source; `|| 0` is the identity on the
stored counters, which are always initialised numbers.) -/
def bumpCounter (ty : PrayerType) (now : Nat) (it : Intention) : Intention :=
  match ty with
  | PrayerType.hailMary => { it with hailMaryCount := it.hailMaryCount + 1, updatedAt := now }
  | PrayerType.ourFather => { it with ourFatherCount := it.ourFatherCount + 1, updatedAt := now }
  | PrayerType.rosary => { it with rosaryCount := it.rosaryCount + 1, updatedAt := now }

/-- `InMemoryStorage.incrementIntentionPrayer`: find the intention by id
(`undefined` → return `undefined` untouched), bump the selected counter in
place, return the mutated record. -/
def incrementIntentionPrayer (s : State) (id : Nat) (ty : PrayerType) (now : Nat) :
    Option Intention × State :=
  match s.intentions.find? (fun i => i.id == id) with
  | none => (none, s)
  | some it =>
    let it' := bumpCounter ty now it
    (some it', { s with intentions := updateFirst (fun i => i.id == id) (bumpCounter ty now) s.intentions })

/-- Clear the active flag on a challenge (`c.isActive = false`). -/
def deactivate (c : Challenge) : Challenge := { c with isActive := some false }

/-- `InMemoryStorage.createChallenge`: when the input's `isActive` is truthy
set every existing challenge's `isActive` to `false`, then push the new
record (id generated, timestamps stamped, `currentCount || 0`; `isActive`
comes from the spread unchanged — possibly absent). -/
def createChallenge (s : State) (inp : InsertChallenge) (now : Nat) :
    Challenge × State :=
  let cs := if jsTruthy inp.isActive then s.challenges.map deactivate else s.challenges
  let newCh : Challenge :=
    { id := s.challengeId
      title := inp.title
      prayerType := inp.prayerType
      totalTarget := inp.totalTarget
      currentCount := inp.currentCount.getD 0
      isActive := inp.isActive
      createdAt := now
      updatedAt := now }
  (newCh, { s with challenges := cs ++ [newCh], challengeId := s.challengeId + 1 })

/-- `InMemoryStorage.getActiveChallenge`: first challenge whose `isActive`
is truthy, else `undefined`. -/
def getActiveChallenge (s : State) : Option Challenge :=
  s.challenges.find? (fun c => jsTruthy c.isActive)

/-- `Object.assign(ch, updates, { updatedAt: now })`: assign each field the
update carries, always stamp `updatedAt`. -/
def applyUpdates (u : ChallengeUpdates) (now : Nat) (c : Challenge) : Challenge :=
  { c with
    title := u.title.getD c.title
    prayerType := u.prayerType.getD c.prayerType
    totalTarget := u.totalTarget.getD c.totalTarget
    isActive := match u.isActive with | some b => some b | none => c.isActive
    updatedAt := now }

/-- `InMemoryStorage.updateChallenge`: find by id — `undefined` if absent,
with no side effect; otherwise, when `updates.isActive` is truthy, first
set every challenge's `isActive` to `false`, then `Object.assign` the
updates onto the found object (which lives in the array, so the array slot
changes with it). -/
def updateChallenge (s : State) (id : Nat) (u : ChallengeUpdates) (now : Nat) :
    Option Challenge × State :=
  match s.challenges.find? (fun c => c.id == id) with
  | none => (none, s)
  | some ch =>
    if jsTruthy u.isActive then
      (some (applyUpdates u now (deactivate ch)),
       { s with challenges :=
          updateFirst (fun c => c.id == id) (applyUpdates u now) (s.challenges.map deactivate) })
    else
      (some (applyUpdates u now ch),
       { s with challenges := updateFirst (fun c => c.id == id) (applyUpdates u now) s.challenges })

/-- `InMemoryStorage.deleteChallenge`: filter the id out; returns nothing
(`Promise<void>`), so the store is the whole result. -/
def deleteChallenge (s : State) (id : Nat) : State :=
  { s with challenges := s.challenges.filter (fun c => ¬ c.id == id) }

/-- `InMemoryStorage.incrementChallenge`: find by id (`undefined` if
absent), add `amount` to `currentCount` in place
(`(ch.currentCount || 0) + amount`; `|| 0` is the identity on the stored
counter, always an initialised number), stamp `updatedAt`. -/
def incrementChallenge (s : State) (id : Nat) (amount : Int) (now : Nat) :
    Option Challenge × State :=
  match s.challenges.find? (fun c => c.id == id) with
  | none => (none, s)
  | some ch =>
    let f : Challenge → Challenge := fun c => { c with currentCount := c.currentCount + amount, updatedAt := now }
    (some (f ch), { s with challenges := updateFirst (fun c => c.id == id) f s.challenges })

/-- Number of challenges whose `isActive` is truthy. -/
def activeCount (s : State) : Nat :=
  s.challenges.countP (fun c => jsTruthy c.isActive)

end InMem

namespace DB

/-- A row of the `intentions` table (`schema.ts`): counters default to 0,
`isPrinted` defaults to `false`, `createdAt` defaults to now. -/
structure IntentionRow where
  id : Nat
  content : String
  name : Option String
  prayerType : Option String
  hailMaryCount : Int
  ourFatherCount : Int
  rosaryCount : Int
  isPrinted : Bool
  createdAt : Nat
deriving DecidableEq, Repr

/-- A row of the `challenges` table (`schema.ts`): `currentCount` defaults
to 0 and `isActive` defaults to `true`. -/
structure ChallengeRow where
  id : Nat
  title : String
  prayerType : String
  totalTarget : Int
  currentCount : Int
  isActive : Bool
  createdAt : Nat
deriving DecidableEq, Repr

/-- The two tables `DatabaseStorage` touches for the claims, with their
serial-id sequences. -/
structure State where
  intentions : List IntentionRow
  challenges : List ChallengeRow
  intentionSeq : Nat
  challengeSeq : Nat
deriving DecidableEq, Repr

/-- `UPDATE ... SET ... WHERE id = id RETURNING *`: apply `f` to every row
matching the id (the primary key, so at most one in reachable states) and
return the first updated row, or `none` when no row matched. -/
def updateWhereId (f : ChallengeRow → ChallengeRow) (id : Nat) (s : State) :
    Option ChallengeRow × State :=
  let s' := { s with challenges := s.challenges.map (fun c => if c.id == id then f c else c) }
  ((s'.challenges.find? (fun c => c.id == id)), s')

/-- Same shape for the `intentions` table. -/
def updateIntentionWhereId (f : IntentionRow → IntentionRow) (id : Nat) (s : State) :
    Option IntentionRow × State :=
  let s' := { s with intentions := s.intentions.map (fun i => if i.id == id then f i else i) }
  ((s'.intentions.find? (fun i => i.id == id)), s')

/-- `DatabaseStorage.createChallenge`: when the input's `isActive` is truthy
run `UPDATE challenges SET is_active = false WHERE is_active = true`, then
`INSERT ... RETURNING *` with the column defaults of `schema.ts` applied to
omitted fields (`currentCount` → 0, `isActive` → `true`). -/
def createChallenge (s : State) (inp : InMem.InsertChallenge) (now : Nat) :
    ChallengeRow × State :=
  let cs := if jsTruthy inp.isActive
    then s.challenges.map (fun c => if c.isActive then { c with isActive := false } else c)
    else s.challenges
  let row : ChallengeRow :=
    { id := s.challengeSeq
      title := inp.title
      prayerType := inp.prayerType
      totalTarget := inp.totalTarget
      currentCount := inp.currentCount.getD 0
      isActive := inp.isActive.getD true
      createdAt := now }
  (row, { s with challenges := cs ++ [row], challengeSeq := s.challengeSeq + 1 })

/-- `DatabaseStorage.updateChallenge`: when `updates.isActive` is truthy
first run the blanket `SET is_active = false WHERE is_active = true`
(before any existence check), then the targeted
`UPDATE ... WHERE id = id RETURNING *`. -/
def updateChallenge (s : State) (id : Nat) (u : InMem.ChallengeUpdates) :
    Option ChallengeRow × State :=
  let s₁ := if jsTruthy u.isActive
    then { s with challenges := s.challenges.map (fun c => if c.isActive then { c with isActive := false } else c) }
    else s
  updateWhereId (fun c =>
    { c with
      title := u.title.getD c.title
      prayerType := u.prayerType.getD c.prayerType
      totalTarget := u.totalTarget.getD c.totalTarget
      isActive := match u.isActive with | some b => b | none => c.isActive }) id s₁

/-- `DatabaseStorage.incrementChallenge`:
`UPDATE challenges SET current_count = current_count + amount WHERE id = id
RETURNING *` — one atomic read-modify-write statement. -/
def incrementChallenge (s : State) (id : Nat) (amount : Int) :
    Option ChallengeRow × State :=
  updateWhereId (fun c => { c with currentCount := c.currentCount + amount }) id s

/-- Bump the column selected by `ty` by 1. -/
def bumpRow (ty : PrayerType) (i : IntentionRow) : IntentionRow :=
  match ty with
  | PrayerType.hailMary => { i with hailMaryCount := i.hailMaryCount + 1 }
  | PrayerType.ourFather => { i with ourFatherCount := i.ourFatherCount + 1 }
  | PrayerType.rosary => { i with rosaryCount := i.rosaryCount + 1 }

/-- `DatabaseStorage.incrementIntentionPrayerImpl`:
`UPDATE intentions SET <counter> = <counter> + 1 WHERE id = id RETURNING *`
— one atomic read-modify-write statement on the selected counter column. -/
def incrementIntentionPrayerImpl (s : State) (id : Nat) (ty : PrayerType) :
    Option IntentionRow × State :=
  updateIntentionWhereId (bumpRow ty) id s

/-- `deleteChallenge`: `DELETE FROM challenges WHERE id = id`; no result. -/
def deleteChallenge (s : State) (id : Nat) : State :=
  { s with challenges := s.challenges.filter (fun c => ¬ c.id == id) }

/-- Number of rows with `is_active = true`. -/
def activeCount (s : State) : Nat :=
  s.challenges.countP (fun c => c.isActive)

/-- Observed `current_count` of the challenge row with the given id. -/
def challengeCount (s : State) (id : Nat) : Option Int :=
  (s.challenges.find? (fun c => c.id == id)).map (fun c => c.currentCount)

/-- Read the counter column selected by `ty`. -/
def rowCounter (ty : PrayerType) (i : IntentionRow) : Int :=
  match ty with
  | PrayerType.hailMary => i.hailMaryCount
  | PrayerType.ourFather => i.ourFatherCount
  | PrayerType.rosary => i.rosaryCount

/-- Observed counter of the intention row with the given id. -/
def prayerCount (s : State) (id : Nat) (ty : PrayerType) : Option Int :=
  (s.intentions.find? (fun i => i.id == id)).map (rowCounter ty)

end DB

/-- `n` challenge increments of `delta = 1` in sequence.  Each
`DB.incrementChallenge` is a single SQL `UPDATE ... SET current_count =
current_count + 1`, i.e. one atomic read-modify-write, so any schedule of
`n` concurrent calls is one of the serial orders this function models (all
serial orders act identically on the counter). -/
def iterIncChallenge (id : Nat) : Nat → DB.State → DB.State
  | 0, s => s
  | Nat.succ n, s => iterIncChallenge id n (DB.incrementChallenge s id 1).2

/-- `n` intention-prayer increments in sequence; same atomicity argument as
`iterIncChallenge`, via `DB.incrementIntentionPrayerImpl`. -/
def iterIncPrayer (id : Nat) (ty : PrayerType) : Nat → DB.State → DB.State
  | 0, s => s
  | Nat.succ n, s => iterIncPrayer id ty n (DB.incrementIntentionPrayerImpl s id ty).2

namespace Routes

/-- Outcome of a route handler: HTTP status plus the store afterwards. -/
structure Response (α : Type) where
  status : Nat
  body : Option α
  store : InMem.State
deriving Repr

/-- Body of `POST /api/challenges/:id/increment` as the spec's table
describes it (an `amount`).  The handler in `routes.ts` never reads it. -/
structure IncrementChallengeBody where
  amount : Int
deriving DecidableEq, Repr

/-- `POST /api/challenges/:id/increment` (`routes.ts`): calls
`storage.incrementChallenge(parseInt(req.params.id), 1)` — the literal `1`,
ignoring the request body — answering 404 when the id is unknown and 200
with the updated challenge otherwise. -/
def postChallengeIncrement (s : InMem.State) (id : Nat)
    (_body : IncrementChallengeBody) (now : Nat) : Response InMem.Challenge :=
  match InMem.incrementChallenge s id 1 now with
  | (none, s') => { status := 404, body := none, store := s' }
  | (some ch, s') => { status := 200, body := some ch, store := s' }

/-- `POST /api/intentions/:id/pray` (`routes.ts`): 400 when `type` is not
one of the three counters, otherwise
`storage.incrementIntentionPrayer(parseInt(req.params.id), type)`,
answering 404 when the id is unknown and 200 with the record otherwise. -/
def postIntentionPray (s : InMem.State) (id : Nat) (tyStr : String) (now : Nat) :
    Response InMem.Intention :=
  match parsePrayerType tyStr with
  | none => { status := 400, body := none, store := s }
  | some ty =>
    match InMem.incrementIntentionPrayer s id ty now with
    | (none, s') => { status := 404, body := none, store := s' }
    | (some it, s') => { status := 200, body := some it, store := s' }

/-- `DELETE /api/admin/challenges/:id` (`routes.ts`): always
`await storage.deleteChallenge(id)` then `res.status(204).send()` —
there is no not-found branch. -/
def deleteChallengeRoute (s : InMem.State) (id : Nat) : Response InMem.Challenge :=
  { status := 204, body := none, store := InMem.deleteChallenge s id }

end Routes

/-- One admin/visitor operation on the challenge collection of the
in-memory store. -/
inductive ChallengeOp where
  | create (inp : InMem.InsertChallenge)
  | update (id : Nat) (u : InMem.ChallengeUpdates)
  | increment (id : Nat) (amount : Int)
  | delete (id : Nat)

/-- The store after running one challenge operation. -/
def applyChallengeOp (s : InMem.State) (now : Nat) : ChallengeOp → InMem.State
  | ChallengeOp.create inp => (InMem.createChallenge s inp now).2
  | ChallengeOp.update id u => (InMem.updateChallenge s id u now).2
  | ChallengeOp.increment id amount => (InMem.incrementChallenge s id amount now).2
  | ChallengeOp.delete id => InMem.deleteChallenge s id

section ListLemmas

variable {α : Type _}

theorem countP_map_eq_zero {p : α → Bool} {f : α → α} (h : ∀ x, p (f x) = false)
    (l : List α) : (l.map f).countP p = 0 := by
  rw [List.countP_eq_zero]
  intro a ha
  obtain ⟨x, -, rfl⟩ := List.mem_map.mp ha
  simp [h]

theorem updateFirst_of_find?_eq_none {q : α → Bool} {f : α → α} :
    ∀ {l : List α}, l.find? q = none → updateFirst q f l = l := by
  intro l
  induction l with
  | nil => intro _; rfl
  | cons y ys ih =>
    intro h
    rw [List.find?_eq_none] at h
    have hy : q y = false := by
      have := h y (List.mem_cons_self y ys)
      simpa using this
    have hys : ys.find? q = none := by
      rw [List.find?_eq_none]
      intro x hx
      exact h x (List.mem_cons_of_mem y hx)
    simp [updateFirst, hy, ih hys]

theorem updateFirst_split {q : α → Bool} {l : List α} {x : α} (f : α → α)
    (h : l.find? q = some x) :
    ∃ l₁ l₂, l = l₁ ++ x :: l₂ ∧ (∀ a ∈ l₁, q a = false) ∧ q x = true ∧
      updateFirst q f l = l₁ ++ f x :: l₂ := by
  induction l with
  | nil => simp [List.find?] at h
  | cons y ys ih =>
    cases hq : q y with
    | true =>
      have hx : x = y := by
        rw [List.find?_cons_of_pos _ hq] at h
        exact (Option.some_injective _ h).symm
      subst hx
      exact ⟨[], ys, rfl, by simp, hq, by simp [updateFirst, hq]⟩
    | false =>
      have h' : ys.find? q = some x := by
        rwa [List.find?_cons_of_neg _ (by simp [hq])] at h
      obtain ⟨l₁, l₂, hl, hall, hqx, hupd⟩ := ih h'
      refine ⟨y :: l₁, l₂, by rw [hl]; rfl, ?_, hqx, ?_⟩
      · intro a ha
        rcases List.mem_cons.mp ha with rfl | ha'
        · exact hq
        · exact hall a ha'
      · simp [updateFirst, hq, hupd]

theorem countP_updateFirst_le {p q : α → Bool} {f : α → α}
    (h : ∀ x, p (f x) = true → p x = true) :
    ∀ l : List α, (updateFirst q f l).countP p ≤ l.countP p := by
  intro l
  induction l with
  | nil => simp [updateFirst]
  | cons y ys ih =>
    cases hq : q y with
    | true =>
      simp only [updateFirst, hq, if_true, List.countP_cons]
      cases hpf : p (f y) with
      | true => simp [hpf, h y hpf]
      | false => simp [hpf]
    | false =>
      simp only [updateFirst, hq, Bool.false_eq_true, if_false, List.countP_cons]
      exact Nat.add_le_add_right ih _

theorem countP_updateFirst_of_zero {p q : α → Bool} {f : α → α} :
    ∀ {l : List α}, l.countP p = 0 → (updateFirst q f l).countP p ≤ 1 := by
  intro l
  induction l with
  | nil => intro _; simp [updateFirst]
  | cons y ys ih =>
    intro h
    rw [List.countP_cons] at h
    have hys : ys.countP p = 0 := Nat.eq_zero_of_add_eq_zero_right h
    have hy : p y = false := by
      cases hpy : p y with
      | true => rw [hpy] at h; simp at h
      | false => rfl
    cases hq : q y with
    | true =>
      simp only [updateFirst, hq, if_true, List.countP_cons, hys]
      cases p (f y) <;> simp
    | false =>
      simp only [updateFirst, hq, Bool.false_eq_true, if_false, List.countP_cons, hy]
      simpa using ih hys

theorem find?_append_of_all_false {p : α → Bool} {l₁ l₂ : List α}
    (h : ∀ a ∈ l₁, p a = false) :
    (l₁ ++ l₂).find? p = l₂.find? p := by
  rw [List.find?_append]
  have : l₁.find? p = none := List.find?_eq_none.mpr (by intro x hx; simp [h x hx])
  rw [this, Option.none_or]

end ListLemmas

theorem jsTruthy_deactivate (c : InMem.Challenge) :
    jsTruthy (InMem.deactivate c).isActive = false := by
  simp [InMem.deactivate, jsTruthy]

/-- C1: for every state of the in-memory challenge store and every operation
(`createChallenge`, `updateChallenge`, `incrementChallenge`,
`deleteChallenge`), if at most one challenge is active before the
operation, then at most one challenge is active after it. -/
theorem c1_at_most_one_active_preserved (s : InMem.State) (now : Nat)
    (op : ChallengeOp) (h : InMem.activeCount s ≤ 1) :
    InMem.activeCount (applyChallengeOp s now op) ≤ 1 := by
  cases op with
  | create inp =>
    simp only [applyChallengeOp, InMem.createChallenge, InMem.activeCount] at *
    cases hj : jsTruthy inp.isActive with
    | true =>
      simp only [hj, if_true, List.countP_append]
      rw [countP_map_eq_zero (fun c => jsTruthy_deactivate c)]
      simp [List.countP_cons, hj]
    | false =>
      simp only [hj, Bool.false_eq_true, if_false, List.countP_append]
      have : List.countP (fun c => jsTruthy c.isActive)
          [({ id := s.challengeId, title := inp.title, prayerType := inp.prayerType,
              totalTarget := inp.totalTarget, currentCount := inp.currentCount.getD 0,
              isActive := inp.isActive, createdAt := now, updatedAt := now } : InMem.Challenge)] = 0 := by
        simp [List.countP_cons, hj]
      omega
  | update id u =>
    simp only [applyChallengeOp, InMem.updateChallenge] at *
    cases hf : s.challenges.find? (fun c => c.id == id) with
    | none => simpa [InMem.activeCount, hf] using h
    | some ch =>
      cases hj : jsTruthy u.isActive with
      | true =>
        simp only [hf, hj, if_true, InMem.activeCount]
        exact countP_updateFirst_of_zero
          (countP_map_eq_zero (fun c => jsTruthy_deactivate c) _)
      | false =>
        simp only [hf, hj, Bool.false_eq_true, if_false, InMem.activeCount]
        refine le_trans (countP_updateFirst_le ?_ _) h
        intro x hx
        cases hui : u.isActive with
        | none => simpa [InMem.applyUpdates, hui] using hx
        | some b =>
          cases b with
          | false => simp [InMem.applyUpdates, hui, jsTruthy] at hx
          | true => rw [hui] at hj; simp [jsTruthy] at hj
  | increment id amount =>
    simp only [applyChallengeOp, InMem.incrementChallenge] at *
    cases hf : s.challenges.find? (fun c => c.id == id) with
    | none => simpa [InMem.activeCount, hf] using h
    | some ch =>
      simp only [hf, InMem.activeCount]
      refine le_trans (countP_updateFirst_le ?_ _) h
      intro x hx
      simpa using hx
  | delete id =>
    simp only [applyChallengeOp, InMem.deleteChallenge, InMem.activeCount] at *
    exact le_trans (List.Sublist.countP_le _ (List.filter_sublist _)) h

/-- A sample stored intention (the shape `seedDatabase` creates). -/
def sampleIntention : InMem.Intention :=
  { id := 1, content := "For peace", name := some "Maria", prayerType := some "Rosary",
    hailMaryCount := 5, ourFatherCount := 2, rosaryCount := 1, isPrinted := false,
    createdAt := 0, updatedAt := 0 }

/-- A sample stored challenge, active. -/
def sampleChallenge : InMem.Challenge :=
  { id := 1, title := "Weekly Rosary Challenge", prayerType := "Rosary",
    totalTarget := 1000, currentCount := 42, isActive := some true,
    createdAt := 0, updatedAt := 0 }

/-- A sample in-memory store holding one intention and one active
challenge. -/
def sampleState : InMem.State :=
  { intentions := [sampleIntention], challenges := [sampleChallenge],
    intentionId := 2, challengeId := 2 }

/-- Witness for C1: the invariant is preserved at a concrete store and a
concrete create-active operation. -/
theorem c1_at_most_one_active_preserved_witness :
    InMem.activeCount sampleState ≤ 1 ∧
    InMem.activeCount (applyChallengeOp sampleState 5
      (ChallengeOp.create
        { title := "New", prayerType := "Rosary", totalTarget := 100,
          isActive := some true })) ≤ 1 :=
  ⟨by decide,
   c1_at_most_one_active_preserved sampleState 5
     (ChallengeOp.create
       { title := "New", prayerType := "Rosary", totalTarget := 100,
         isActive := some true }) (by decide)⟩

/-- C2: creating a challenge with `isActive = true`, or updating an existing
challenge with `isActive = true` (even with no other field), leaves exactly
one challenge active — the target of the call — and every other challenge
(in particular every previously active one) inactive. -/
theorem c2_activation_exclusive (s : InMem.State) (inp : InMem.InsertChallenge)
    (id : Nat) (u : InMem.ChallengeUpdates) (now : Nat) :
    (inp.isActive = some true →
      InMem.activeCount (InMem.createChallenge s inp now).2 = 1 ∧
      InMem.getActiveChallenge (InMem.createChallenge s inp now).2 =
        some (InMem.createChallenge s inp now).1 ∧
      ∀ c ∈ ((InMem.createChallenge s inp now).2).challenges,
        jsTruthy c.isActive = true → c = (InMem.createChallenge s inp now).1) ∧
    (u.isActive = some true →
      ∀ t, (InMem.updateChallenge s id u now).1 = some t →
        InMem.activeCount (InMem.updateChallenge s id u now).2 = 1 ∧
        InMem.getActiveChallenge (InMem.updateChallenge s id u now).2 = some t ∧
        ∀ c ∈ ((InMem.updateChallenge s id u now).2).challenges,
          jsTruthy c.isActive = true → c = t) := by
  constructor
  · intro hin
    have hj : jsTruthy inp.isActive = true := by rw [hin]; rfl
    simp only [InMem.createChallenge, InMem.activeCount, InMem.getActiveChallenge,
      hj, if_true]
    have hmap : ∀ a ∈ s.challenges.map InMem.deactivate,
        jsTruthy a.isActive = false := by
      intro a ha
      obtain ⟨x, -, rfl⟩ := List.mem_map.mp ha
      exact jsTruthy_deactivate x
    refine ⟨?_, ?_, ?_⟩
    · rw [List.countP_append, List.countP_eq_zero.mpr (by simpa using hmap)]
      simp [List.countP_cons, hj]
    · rw [find?_append_of_all_false (by intro a ha; simpa using hmap a ha)]
      simp [List.find?_cons, hj]
    · intro c hc hca
      rcases List.mem_append.mp hc with hc₁ | hc₂
      · rw [hmap c hc₁] at hca; cases hca
      · simpa using hc₂
  · intro hiu t ht
    have hj : jsTruthy u.isActive = true := by rw [hiu]; rfl
    simp only [InMem.updateChallenge, hj, if_true] at ht ⊢
    cases hf : s.challenges.find? (fun c => c.id == id) with
    | none => rw [hf] at ht; simp at ht
    | some ch =>
      rw [hf] at ht
      dsimp only at ht ⊢
      have htv : t = InMem.applyUpdates u now (InMem.deactivate ch) :=
        (Option.some_injective _ ht).symm
      have hfL : (s.challenges.map InMem.deactivate).find? (fun c => c.id == id) =
          some (InMem.deactivate ch) := by
        rw [List.find?_map]
        have hcomp : ((fun c : InMem.Challenge => c.id == id) ∘ InMem.deactivate) =
            (fun c : InMem.Challenge => c.id == id) := rfl
        rw [hcomp, hf]
        rfl
      obtain ⟨l₁, l₂, hL, hall, hqx, hupd⟩ :=
        updateFirst_split (InMem.applyUpdates u now) hfL
      have hmap : ∀ a ∈ s.challenges.map InMem.deactivate,
          jsTruthy a.isActive = false := by
        intro a ha
        obtain ⟨x, -, rfl⟩ := List.mem_map.mp ha
        exact jsTruthy_deactivate x
      have hl₁ : ∀ a ∈ l₁, jsTruthy a.isActive = false := by
        intro a ha
        exact hmap a (hL ▸ List.mem_append_left _ ha)
      have hl₂ : ∀ a ∈ l₂, jsTruthy a.isActive = false := by
        intro a ha
        exact hmap a (hL ▸ List.mem_append_right _ (List.mem_cons_of_mem _ ha))
      have hpt : jsTruthy (InMem.applyUpdates u now (InMem.deactivate ch)).isActive = true := by
        simp [InMem.applyUpdates, hiu, jsTruthy]
      refine ⟨?_, ?_, ?_⟩
      · simp only [InMem.activeCount, hupd, List.countP_append, List.countP_cons]
        rw [List.countP_eq_zero.mpr (by simpa using hl₁),
          List.countP_eq_zero.mpr (by simpa using hl₂)]
        simp [hpt, htv]
      · simp only [InMem.getActiveChallenge, hupd]
        rw [find?_append_of_all_false (by simpa using hl₁)]
        rw [List.find?_cons_of_pos _ (by simpa using hpt)]
        rw [htv]
      · intro c hc hca
        rw [hupd] at hc
        rcases List.mem_append.mp hc with hc₁ | hc₂
        · rw [hl₁ c hc₁] at hca; cases hca
        · rcases List.mem_cons.mp hc₂ with rfl | hc₃
          · exact htv.symm
          · rw [hl₂ c hc₃] at hca; cases hca

/-- Witness for C2: both branches at a concrete store — create a new active
challenge over an already-active one, and update an inactive challenge to
active. -/
theorem c2_activation_exclusive_witness :
    (InMem.activeCount (InMem.createChallenge sampleState
        { title := "New", prayerType := "Rosary", totalTarget := 100,
          isActive := some true } 5).2 = 1 ∧
      InMem.getActiveChallenge (InMem.createChallenge sampleState
        { title := "New", prayerType := "Rosary", totalTarget := 100,
          isActive := some true } 5).2 =
        some (InMem.createChallenge sampleState
        { title := "New", prayerType := "Rosary", totalTarget := 100,
          isActive := some true } 5).1) ∧
    (InMem.activeCount (InMem.updateChallenge sampleState 1
        { isActive := some true } 5).2 = 1) := by
  have h := c2_activation_exclusive sampleState
    { title := "New", prayerType := "Rosary", totalTarget := 100, isActive := some true }
    1 { isActive := some true } 5
  obtain ⟨h₁, h₂, -⟩ := h.1 rfl
  refine ⟨⟨h₁, h₂⟩, ?_⟩
  obtain ⟨h₃, -, -⟩ := h.2 rfl (InMem.applyUpdates { isActive := some true } 5
    (InMem.deactivate sampleChallenge)) (by decide)
  exact h₃

theorem find?_map_ite (q : α → Bool) (f : α → α) (hid : ∀ c, q (f c) = q c) :
    ∀ l : List α,
      (l.map (fun c => if q c then f c else c)).find? q = (l.find? q).map f := by
  intro l
  induction l with
  | nil => rfl
  | cons y ys ih =>
    cases hy : q y with
    | true =>
      have hfy : q (f y) = true := by rw [hid, hy]
      rw [List.map_cons, if_pos hy, List.find?_cons_of_pos _ hfy,
        List.find?_cons_of_pos _ hy]
      rfl
    | false =>
      have hny : ¬ q y = true := by rw [hy]; exact Bool.false_ne_true
      rw [List.map_cons, if_neg hny, List.find?_cons_of_neg _ hny,
        List.find?_cons_of_neg _ hny]
      exact ih

theorem updateWhereId_find? (f : DB.ChallengeRow → DB.ChallengeRow)
    (hid : ∀ c, (f c).id = c.id) (id : Nat) (s : DB.State) :
    ((DB.updateWhereId f id s).2).challenges.find? (fun c => c.id == id) =
      (s.challenges.find? (fun c => c.id == id)).map f :=
  find?_map_ite (fun c => c.id == id) f (fun c => by dsimp only; rw [hid]) s.challenges

theorem updateIntentionWhereId_find? (f : DB.IntentionRow → DB.IntentionRow)
    (hid : ∀ i, (f i).id = i.id) (id : Nat) (s : DB.State) :
    ((DB.updateIntentionWhereId f id s).2).intentions.find? (fun i => i.id == id) =
      (s.intentions.find? (fun i => i.id == id)).map f :=
  find?_map_ite (fun i => i.id == id) f (fun i => by dsimp only; rw [hid]) s.intentions

theorem challengeCount_increment (s : DB.State) (id : Nat) (amount : Int) :
    DB.challengeCount (DB.incrementChallenge s id amount).2 id =
      (DB.challengeCount s id).map (fun c => c + amount) := by
  unfold DB.challengeCount DB.incrementChallenge
  rw [updateWhereId_find? (fun c => { c with currentCount := c.currentCount + amount })
    (fun c => rfl) id s]
  cases s.challenges.find? (fun c => c.id == id) with
  | none => rfl
  | some c => rfl

theorem rowCounter_bumpRow (ty : PrayerType) (i : DB.IntentionRow) :
    DB.rowCounter ty (DB.bumpRow ty i) = DB.rowCounter ty i + 1 := by
  cases ty <;> rfl

theorem bumpRow_id (ty : PrayerType) (i : DB.IntentionRow) :
    (DB.bumpRow ty i).id = i.id := by
  cases ty <;> rfl

theorem prayerCount_increment (s : DB.State) (id : Nat) (ty : PrayerType) :
    DB.prayerCount (DB.incrementIntentionPrayerImpl s id ty).2 id ty =
      (DB.prayerCount s id ty).map (fun c => c + 1) := by
  unfold DB.prayerCount DB.incrementIntentionPrayerImpl
  rw [updateIntentionWhereId_find? (DB.bumpRow ty) (bumpRow_id ty) id s]
  cases s.intentions.find? (fun i => i.id == id) with
  | none => rfl
  | some i =>
    show some (DB.rowCounter ty (DB.bumpRow ty i)) = some (DB.rowCounter ty i + 1)
    rw [rowCounter_bumpRow]

theorem iterIncChallenge_adds (idc : Nat) :
    ∀ (n : Nat) (s : DB.State) (c₀ : Int),
      DB.challengeCount s idc = some c₀ →
      DB.challengeCount (iterIncChallenge idc n s) idc = some (c₀ + n) := by
  intro n
  induction n with
  | zero => intro s c₀ hc; simpa using hc
  | succ n ih =>
    intro s c₀ hc
    have hstep : DB.challengeCount (DB.incrementChallenge s idc 1).2 idc = some (c₀ + 1) := by
      rw [challengeCount_increment, hc]; rfl
    have h := ih (DB.incrementChallenge s idc 1).2 (c₀ + 1) hstep
    show DB.challengeCount (iterIncChallenge idc n (DB.incrementChallenge s idc 1).2) idc = _
    rw [h]
    congr 1
    push_cast
    ring

theorem iterIncPrayer_adds (idi : Nat) (ty : PrayerType) :
    ∀ (n : Nat) (s : DB.State) (p₀ : Int),
      DB.prayerCount s idi ty = some p₀ →
      DB.prayerCount (iterIncPrayer idi ty n s) idi ty = some (p₀ + n) := by
  intro n
  induction n with
  | zero => intro s p₀ hp; simpa using hp
  | succ n ih =>
    intro s p₀ hp
    have hstep : DB.prayerCount (DB.incrementIntentionPrayerImpl s idi ty).2 idi ty = some (p₀ + 1) := by
      rw [prayerCount_increment, hp]; rfl
    have h := ih (DB.incrementIntentionPrayerImpl s idi ty).2 (p₀ + 1) hstep
    show DB.prayerCount (iterIncPrayer idi ty n (DB.incrementIntentionPrayerImpl s idi ty).2) idi ty = _
    rw [h]
    congr 1
    push_cast
    ring

/-- C3: for any record, `n` concurrent increments with `delta = 1` against
the same counter — each a single indivisible SQL read-modify-write, so any
concurrent schedule is a serial order of the `n` atomic transitions — leave
the counter at its initial value plus `n`, for every `n` (hence in
particular up to 100); this holds both for a challenge's `currentCount`
(`DatabaseStorage.incrementChallenge`) and an intention's prayer counter
(`DatabaseStorage.incrementIntentionPrayerImpl`). -/
theorem c3_concurrent_increments_no_lost_updates (s : DB.State) (idc idi : Nat)
    (ty : PrayerType) (c₀ p₀ : Int) (n : Nat)
    (hc : DB.challengeCount s idc = some c₀)
    (hp : DB.prayerCount s idi ty = some p₀) :
    DB.challengeCount (iterIncChallenge idc n s) idc = some (c₀ + n) ∧
    DB.prayerCount (iterIncPrayer idi ty n s) idi ty = some (p₀ + n) :=
  ⟨iterIncChallenge_adds idc n s c₀ hc, iterIncPrayer_adds idi ty n s p₀ hp⟩

/-- A sample database state: one intention row and one challenge row. -/
def sampleDBState : DB.State :=
  { intentions :=
      [{ id := 1, content := "For peace", name := some "Maria",
         prayerType := some "Rosary", hailMaryCount := 5, ourFatherCount := 2,
         rosaryCount := 1, isPrinted := false, createdAt := 0 }]
    challenges :=
      [{ id := 1, title := "Weekly Rosary Challenge", prayerType := "Rosary",
         totalTarget := 1000, currentCount := 42, isActive := true, createdAt := 0 }]
    intentionSeq := 2, challengeSeq := 2 }

/-- Witness for C3: 100 simulated concurrent increments against the sample
database leave `currentCount` at 42 + 100 and `hailMaryCount` at 5 + 100. -/
theorem c3_concurrent_increments_no_lost_updates_witness :
    DB.challengeCount (iterIncChallenge 1 100 sampleDBState) 1 = some (42 + 100) ∧
    DB.prayerCount (iterIncPrayer 1 PrayerType.hailMary 100 sampleDBState) 1
      PrayerType.hailMary = some (5 + 100) :=
  c3_concurrent_increments_no_lost_updates sampleDBState 1 1 PrayerType.hailMary
    42 5 100 (by decide) (by decide)

/-- A create-challenge input that does not set `isActive` (the parsed body
of `POST /api/admin/challenges` with the field omitted). -/
def noActiveInput : InMem.InsertChallenge :=
  { title := "Lent Challenge", prayerType := "Rosary", totalTarget := 100 }

/-- C4 is false on the code: creating a challenge without an explicit
`isActive` over a store whose challenge 1 is active gives, in the
in-memory store, a new challenge whose `isActive` is unset (not `true`)
and leaves the old challenge the sole active one (nothing is
deactivated); in the database store the new row IS active via the column
default, but the deactivation step is skipped (the truthiness check sees
`undefined`), leaving two active rows. -/
theorem c4_create_default_not_applied :
    ((InMem.createChallenge sampleState noActiveInput 5).1).isActive ≠ some true ∧
    jsTruthy ((InMem.createChallenge sampleState noActiveInput 5).1).isActive = false ∧
    InMem.getActiveChallenge (InMem.createChallenge sampleState noActiveInput 5).2 =
      some sampleChallenge ∧
    (DB.createChallenge sampleDBState noActiveInput 5).1.isActive = true ∧
    DB.activeCount (DB.createChallenge sampleDBState noActiveInput 5).2 = 2 := by
  decide

/-- C5 counterexample: an increment request carrying `amount = 5` against
challenge 1 (whose `currentCount` is 42) yields `currentCount = 43` — the
route passes the literal `1` to the store and ignores the body — not 47 as
the claim requires. -/
theorem c5_route_ignores_amount_counterexample :
    (Routes.postChallengeIncrement sampleState 1 { amount := 5 } 7).body.map
      (fun c => c.currentCount) = some 43 ∧ (43 : Int) ≠ 42 + 5 := by
  decide

theorem incrementChallenge_found (s : InMem.State) (id : Nat) (amount : Int)
    (now : Nat) (ch : InMem.Challenge)
    (hf : s.challenges.find? (fun c => c.id == id) = some ch) :
    (InMem.incrementChallenge s id amount now).1 =
      some { ch with currentCount := ch.currentCount + amount, updatedAt := now } := by
  unfold InMem.incrementChallenge
  rw [hf]

/-- C5 (amended): for every existing challenge id, the HTTP
increment-challenge operation returns 200 and the challenge with
`currentCount` increased by exactly 1, whatever `amount` the request body
carries; the storage-level `incrementChallenge(id, amount)` does add the
caller-supplied amount. -/
theorem c5_increment_adds_one_via_route (s : InMem.State) (id : Nat)
    (body : Routes.IncrementChallengeBody) (now : Nat) (ch : InMem.Challenge)
    (hf : s.challenges.find? (fun c => c.id == id) = some ch) :
    ((Routes.postChallengeIncrement s id body now).status = 200 ∧
      (Routes.postChallengeIncrement s id body now).body.map (fun c => c.currentCount) =
        some (ch.currentCount + 1)) ∧
    ∀ amount : Int,
      (InMem.incrementChallenge s id amount now).1.map (fun c => c.currentCount) =
        some (ch.currentCount + amount) := by
  constructor
  · unfold Routes.postChallengeIncrement
    have h1 := incrementChallenge_found s id 1 now ch hf
    cases hinc : InMem.incrementChallenge s id 1 now with
    | mk r s' =>
      rw [hinc] at h1
      cases r with
      | none => cases h1
      | some c =>
        have : c = { ch with currentCount := ch.currentCount + 1, updatedAt := now } :=
          Option.some_injective _ h1
        subst this
        exact ⟨rfl, rfl⟩
  · intro amount
    rw [incrementChallenge_found s id amount now ch hf]
    rfl

/-- Witness for C5's amended theorem at the sample store. -/
theorem c5_increment_adds_one_via_route_witness :
    ((Routes.postChallengeIncrement sampleState 1 { amount := 5 } 7).status = 200 ∧
      (Routes.postChallengeIncrement sampleState 1 { amount := 5 } 7).body.map
        (fun c => c.currentCount) = some (42 + 1)) ∧
    (InMem.incrementChallenge sampleState 1 5 7).1.map (fun c => c.currentCount) =
      some (42 + 5) := by
  have h := c5_increment_adds_one_via_route sampleState 1 { amount := 5 } 7
    sampleChallenge (by decide)
  exact ⟨h.1, h.2 5⟩

/-- C6: incrementing one prayer counter of an existing intention changes
exactly that counter (by 1) and nothing else observable on the record
(`content`, `name`, `prayerType`, `isPrinted`, `createdAt`, the other two
counters, the id), leaves the challenge collection untouched, and leaves
every other intention in place unchanged. -/
theorem c6_increment_intention_frame (s : InMem.State) (id : Nat)
    (ty : PrayerType) (now : Nat) (it₀ it' : InMem.Intention)
    (hf : s.intentions.find? (fun i => i.id == id) = some it₀)
    (h : (InMem.incrementIntentionPrayer s id ty now).1 = some it') :
    InMem.counterVal it' ty = InMem.counterVal it₀ ty + 1 ∧
    (∀ ty', ty' ≠ ty → InMem.counterVal it' ty' = InMem.counterVal it₀ ty') ∧
    it'.content = it₀.content ∧ it'.name = it₀.name ∧
    it'.prayerType = it₀.prayerType ∧ it'.isPrinted = it₀.isPrinted ∧
    it'.createdAt = it₀.createdAt ∧ it'.id = it₀.id ∧
    ((InMem.incrementIntentionPrayer s id ty now).2).challenges = s.challenges ∧
    ((InMem.incrementIntentionPrayer s id ty now).2).intentions.length =
      s.intentions.length ∧
    ∀ i ∈ s.intentions, ¬ i.id = id →
      i ∈ ((InMem.incrementIntentionPrayer s id ty now).2).intentions := by
  unfold InMem.incrementIntentionPrayer at h ⊢
  rw [hf] at h ⊢
  dsimp only at h ⊢
  have hit : it' = InMem.bumpCounter ty now it₀ := (Option.some_injective _ h).symm
  subst hit
  obtain ⟨l₁, l₂, hL, hall, hqx, hupd⟩ := updateFirst_split (InMem.bumpCounter ty now) hf
  refine ⟨?_, ?_, ?_, ?_, ?_, ?_, ?_, ?_, rfl, ?_, ?_⟩
  · cases ty <;> rfl
  · intro ty' hne
    cases ty <;> cases ty' <;> first | rfl | exact absurd rfl hne
  · cases ty <;> rfl
  · cases ty <;> rfl
  · cases ty <;> rfl
  · cases ty <;> rfl
  · cases ty <;> rfl
  · cases ty <;> rfl
  · rw [hupd, hL]
    simp
  · intro i hi hne
    rw [hupd]
    rw [hL] at hi
    rcases List.mem_append.mp hi with h₁ | h₂
    · exact List.mem_append_left _ h₁
    · rcases List.mem_cons.mp h₂ with rfl | h₃
      · exact absurd (by simpa using hqx) hne
      · exact List.mem_append_right _ (List.mem_cons_of_mem _ h₃)

/-- Witness for C6: bumping `hailMary` on the sample intention. -/
theorem c6_increment_intention_frame_witness :
    sampleState.intentions.find? (fun i => i.id == 1) = some sampleIntention ∧
    (InMem.incrementIntentionPrayer sampleState 1 PrayerType.hailMary 7).1 =
      some (InMem.bumpCounter PrayerType.hailMary 7 sampleIntention) ∧
    InMem.counterVal (InMem.bumpCounter PrayerType.hailMary 7 sampleIntention)
        PrayerType.hailMary =
      InMem.counterVal sampleIntention PrayerType.hailMary + 1 ∧
    ((InMem.incrementIntentionPrayer sampleState 1 PrayerType.hailMary 7).2).challenges =
      sampleState.challenges := by
  have h := c6_increment_intention_frame sampleState 1 PrayerType.hailMary 7
    sampleIntention (InMem.bumpCounter PrayerType.hailMary 7 sampleIntention)
    (by decide) (by decide)
  exact ⟨by decide, by decide, h.1, h.2.2.2.2.2.2.2.2.1⟩

/-- C7: incrementing a prayer counter for an id with no stored intention is
a total operation returning `undefined` (no exception) and the store
unchanged; the HTTP layer surfaces it as a 404 response. -/
theorem c7_pray_unknown_id_not_found (s : InMem.State) (id : Nat)
    (tyStr : String) (ty : PrayerType) (now : Nat)
    (hid : s.intentions.find? (fun i => i.id == id) = none)
    (hty : parsePrayerType tyStr = some ty) :
    InMem.incrementIntentionPrayer s id ty now = (none, s) ∧
    (Routes.postIntentionPray s id tyStr now).status = 404 ∧
    (Routes.postIntentionPray s id tyStr now).store = s := by
  have h1 : InMem.incrementIntentionPrayer s id ty now = (none, s) := by
    unfold InMem.incrementIntentionPrayer
    rw [hid]
  have h2 : Routes.postIntentionPray s id tyStr now =
      { status := 404, body := none, store := s } := by
    unfold Routes.postIntentionPray
    rw [hty]
    dsimp only
    rw [h1]
  exact ⟨h1, by rw [h2], by rw [h2]⟩

/-- Witness for C7: praying on id 99, which the sample store lacks. -/
theorem c7_pray_unknown_id_not_found_witness :
    InMem.incrementIntentionPrayer sampleState 99 PrayerType.rosary 7 =
      (none, sampleState) ∧
    (Routes.postIntentionPray sampleState 99 "rosary" 7).status = 404 :=
  have h := c7_pray_unknown_id_not_found sampleState 99 "rosary"
    PrayerType.rosary 7 (by decide) (by decide)
  ⟨h.1, h.2.1⟩

/-- C8 is false on the code: the delete-challenge route unconditionally
runs the delete and answers 204 — there is no not-found branch
(`deleteChallenge` returns `void`), so deleting an id absent from the
store still reports success, not 404. -/
theorem c8_delete_missing_id_reports_success :
    (∀ (s : InMem.State) (id : Nat), (Routes.deleteChallengeRoute s id).status = 204) ∧
    InMem.State.init.challenges.find? (fun c => c.id == 1) = none ∧
    (Routes.deleteChallengeRoute InMem.State.init 1).status ≠ 404 :=
  ⟨fun _ _ => rfl, by decide, by decide⟩

theorem mem_insertDescBy (key : α → Nat) (x a : α) :
    ∀ l : List α, a ∈ insertDescBy key x l ↔ a = x ∨ a ∈ l := by
  intro l
  induction l with
  | nil => simp [insertDescBy]
  | cons y ys ih =>
    unfold insertDescBy
    by_cases hk : key y < key x
    · simp [hk]
    · simp only [hk, if_false, List.mem_cons, ih]
      tauto

theorem mem_sortDescBy (key : α → Nat) (a : α) :
    ∀ l : List α, a ∈ sortDescBy key l ↔ a ∈ l := by
  intro l
  induction l with
  | nil => simp [sortDescBy]
  | cons y ys ih =>
    unfold sortDescBy
    rw [mem_insertDescBy]
    simp [ih]

/-- C9: creating an intention from `{content, name}` and then listing
intentions yields a list containing the created record, which has the
given content and name, all three counters 0, `isPrinted = false`, the
generated id (the store's current sequence value) and a `createdAt`
timestamp (the creation instant). -/
theorem c9_create_intention_round_trip (s : InMem.State) (content nm : String)
    (now : Nat) :
    (InMem.createIntention s { content := content, name := some nm } now).1 ∈
      InMem.getIntentions
        (InMem.createIntention s { content := content, name := some nm } now).2 ∧
    ((InMem.createIntention s { content := content, name := some nm } now).1).content =
      content ∧
    ((InMem.createIntention s { content := content, name := some nm } now).1).name =
      some nm ∧
    ((InMem.createIntention s { content := content, name := some nm } now).1).hailMaryCount = 0 ∧
    ((InMem.createIntention s { content := content, name := some nm } now).1).ourFatherCount = 0 ∧
    ((InMem.createIntention s { content := content, name := some nm } now).1).rosaryCount = 0 ∧
    ((InMem.createIntention s { content := content, name := some nm } now).1).isPrinted = false ∧
    ((InMem.createIntention s { content := content, name := some nm } now).1).id =
      s.intentionId ∧
    ((InMem.createIntention s { content := content, name := some nm } now).1).createdAt =
      now := by
  refine ⟨?_, rfl, rfl, rfl, rfl, rfl, rfl, rfl, rfl⟩
  unfold InMem.getIntentions
  rw [mem_sortDescBy]
  exact List.mem_append_right _ (List.mem_cons_self _ _)

/-- C10 is false for the database backend: updating a nonexistent id with
`isActive = true` returns not-found but has already deactivated every
active challenge (the blanket `SET is_active = false` runs before the
existence check), leaving zero active rows; the in-memory backend checks
existence first and really leaves the store untouched. -/
theorem c10_db_update_missing_id_side_effect :
    (DB.updateChallenge sampleDBState 2 { isActive := some true }).1 = none ∧
    DB.activeCount sampleDBState = 1 ∧
    DB.activeCount (DB.updateChallenge sampleDBState 2 { isActive := some true }).2 = 0 ∧
    InMem.updateChallenge sampleState 2 { isActive := some true } 5 =
      (none, sampleState) := by
  decide

end JYM
